import Mathlib

/-
Verification of the vote-integrity core of the AlxProjectNexus polling backend.

The Python source under backend/ is shallowly embedded below:
pure functions become Lean functions, the Django cache becomes an explicit
key-value map threaded through the operations, the durable-store query inside
check_duplicate_vote_by_idempotency becomes an explicit lookup-result
parameter, and machine hashes (sha256) are left at the level of the exact
string that the source feeds to the hash: two calls produce the same digest
iff they produce the same pre-image string, up to hash collisions, which the
specification itself discounts (it treats the cryptographic hash as injective
with overwhelming probability).

Numeric time arithmetic from the source (datetime subtraction, division by
3600, float comparison against thresholds) is modelled over the rationals.
String handling is modelled over ASCII character lists, which covers every
value the system actually produces (hex digests, decimal ids, IPv4 text).
-/

namespace Provote

/-! ## Python value model

The Django cache stores arbitrary Python objects; the code under
backend/core/utils/idempotency.py branches on their truthiness.  We model the
relevant value universe and the Python truthiness rules for it. -/

/-- A primitive Python value, as appears among the entries of a cached
result dict. -/
inductive PyPrim where
  | pNone : PyPrim
  | pBool : Bool → PyPrim
  | pInt : Int → PyPrim
  | pStr : String → PyPrim
deriving DecidableEq

/-- A Python value as stored in the Django cache by the idempotency helpers:
None, a bool, an int, a string, or a dict (entries in insertion order). -/
inductive PyVal where
  | pyNone : PyVal
  | pyBool : Bool → PyVal
  | pyInt : Int → PyVal
  | pyStr : String → PyVal
  | pyDict : List (String × PyPrim) → PyVal
deriving DecidableEq

/-- Python truthiness for the modelled values: None, False, 0, the empty
string and the empty dict are falsy, everything else is truthy. -/
def PyVal.truthy : PyVal → Bool
  | .pyNone => false
  | .pyBool b => b
  | .pyInt n => n != 0
  | .pyStr s => !s.isEmpty
  | .pyDict l => !l.isEmpty

/-! ## Decimal formatting of ids

backend/core/utils/idempotency.py interpolates ids into f-strings.  Python
formats an int in standard decimal, with a leading minus sign when negative.
We model that formatting directly over the base-10 digit expansion. -/

/-- Decimal rendering of a natural number, as Python string interpolation
produces it: most significant digit first, and the single digit 0 for zero. -/
def pyNatRepr (n : Nat) : String :=
  if n = 0 then "0" else ⟨((Nat.digits 10 n).map Nat.digitChar).reverse⟩

/-- Decimal rendering of a Python int: a minus sign followed by the digits
when negative, plain digits otherwise. -/
def pyIntRepr (i : Int) : String :=
  if i < 0 then "-" ++ pyNatRepr i.natAbs else pyNatRepr i.toNat

/-! ## generate_idempotency_key

Source (backend/core/utils/idempotency.py, lines 13-28):
the key is sha256 of the utf-8 bytes of the string
f-string user:poll:choice.  We embed the hash pre-image string; key equality
is pre-image equality under the hash-injectivity reading the spec adopts. -/

/-- The exact string that generate_idempotency_key feeds to sha256:
the colon-joined decimal ids, per the f-string in the source. -/
def generate_idempotency_key_data (user_id poll_id choice_id : Nat) : String :=
  pyNatRepr user_id ++ ":" ++ pyNatRepr poll_id ++ ":" ++ pyNatRepr choice_id

/-! ## validate_idempotency_key

Source lines 31-53: reject the empty string, reject any length other than 64,
then accept exactly when the Python call int(key, 16) succeeds.  Python int
parsing with an explicit base strips surrounding whitespace, allows one sign,
allows an optional 0x / 0X prefix (optionally followed by one underscore),
and allows single underscores between hex digits.  The model below covers the
ASCII strings the system handles. -/

/-- The whitespace characters Python strips from both ends of an int literal
(ASCII range). -/
def isPyWhitespace (c : Char) : Bool :=
  c = ' ' || c = '\t' || c = '\n' || c = '\x0d' || c = '\x0b' || c = '\x0c'

/-- A hexadecimal digit: 0-9, a-f or A-F. -/
def isHexDig (c : Char) : Bool :=
  ('0' ≤ c && c ≤ '9') || ('a' ≤ c && c ≤ 'f') || ('A' ≤ c && c ≤ 'F')

/-- After an initial hex digit, the remainder of a Python hex numeral:
underscores may appear only singly and only between two hex digits. -/
def hexRunRest : List Char → Bool
  | [] => true
  | c :: rest =>
    if c = '_' then
      match rest with
      | [] => false
      | d :: rest2 => isHexDig d && hexRunRest rest2
    else
      isHexDig c && hexRunRest rest

/-- A nonempty run of hex digits with single underscores allowed between
digits: the digit part of a Python base-16 numeral. -/
def hexRunOk : List Char → Bool
  | [] => false
  | c :: rest => isHexDig c && hexRunRest rest

/-- Strip Python int-literal whitespace from both ends. -/
def stripPyWs (l : List Char) : List Char :=
  ((l.dropWhile isPyWhitespace).reverse.dropWhile isPyWhitespace).reverse

/-- Drop one optional leading sign. -/
def afterSign (l : List Char) : List Char :=
  match l with
  | [] => []
  | c :: rest => if c = '+' || c = '-' then rest else c :: rest

/-- Drop an optional 0x / 0X base prefix, together with the one underscore
Python permits directly after the prefix. -/
def afterPrefix16 (l : List Char) : List Char :=
  match l with
  | c0 :: c1 :: rest =>
    if c0 = '0' && (c1 = 'x' || c1 = 'X') then
      match rest with
      | [] => []
      | c2 :: rest2 => if c2 = '_' then rest2 else c2 :: rest2
    else l
  | _ => l

/-- Whether the Python call int(s, 16) succeeds on an ASCII string s. -/
def pyIntHexOk (s : String) : Bool :=
  hexRunOk (afterPrefix16 (afterSign (stripPyWs s.data)))

/-- Embedding of validate_idempotency_key (idempotency.py lines 31-53):
falsy (empty) keys are rejected, then any length other than 64 is rejected,
then the key is accepted iff int(key, 16) succeeds. -/
def validate_idempotency_key (s : String) : Bool :=
  if s.data.isEmpty then false
  else if s.data.length ≠ 64 then false
  else pyIntHexOk s

/-- The claim reading of the validator, written from the words of the claim:
exactly 64 characters, each a hexadecimal digit. -/
def specPureHexKey64 (s : String) : Bool :=
  s.data.length = 64 && s.data.all isHexDig

/-! ## The cache and the cache-backed idempotency operations

The Django cache is modelled as a map from keys to values.  Expiry is not
modelled: reads in the theorems below are reads within the TTL window. -/

/-- The cache state: a total map from string keys to optional values. -/
def CacheState : Type := String → Option PyVal

/-- cache.get. -/
def cacheGet (c : CacheState) (k : String) : Option PyVal := c k

/-- cache.set (the TTL argument of the source is not modelled; all reads are
within-TTL reads). -/
def cacheSet (c : CacheState) (k : String) (v : PyVal) : CacheState :=
  fun k2 => if k2 = k then some v else c k2

/-- Embedding of check_idempotency (idempotency.py lines 56-75): malformed
keys short-circuit to (False, None); otherwise the cache is read at
idempotency:key and the cached value is reported as a duplicate only when it
is truthy. -/
def check_idempotency (c : CacheState) (key : String) : Bool × Option PyVal :=
  if !validate_idempotency_key key then (false, none)
  else
    match cacheGet c ("idempotency:" ++ key) with
    | some v => if v.truthy then (true, some v) else (false, none)
    | none => (false, none)

/-- Embedding of store_idempotency_result (idempotency.py lines 104-117):
malformed keys short-circuit with no write; otherwise the result is written
at idempotency:key. -/
def store_idempotency_result (c : CacheState) (key : String) (result : PyVal)
    (ttl : Nat) : CacheState :=
  if !validate_idempotency_key key then c
  else cacheSet c ("idempotency:" ++ key) result

/-- Embedding of check_duplicate_vote_by_idempotency (idempotency.py lines
78-101).  The durable VoteRecord query is passed in as an explicit outcome:
ok (some id) when a row with this key exists, ok none when no row exists, and
error e when the query raises.  The source wraps the query in
try/except Exception: pass and then falls through to return (False, None), so
the error branch here returns (False, None). -/
def check_duplicate_vote_by_idempotency (key : String)
    (lookup : Except String (Option Nat)) : Bool × Option Nat :=
  if !validate_idempotency_key key then (false, none)
  else
    match lookup with
    | .ok (some voteId) => (true, some voteId)
    | .ok none => (false, none)
    | .error _ => (false, none)

/-! ## generate_voter_token

Source lines 120-149.  The token is sha256 of a data string; we embed the
data string (hash pre-image).  The authenticated branch is taken on Python
truthiness of user_id, so it requires a non-None and nonzero id. -/

/-- Four hex digits of a code point, lowercase, as json.dumps emits them. -/
def jsonHex4 (n : Nat) : List Char :=
  [Nat.digitChar (n / 4096 % 16), Nat.digitChar (n / 256 % 16),
   Nat.digitChar (n / 16 % 16), Nat.digitChar (n % 16)]

/-- Escaping of one character by json.dumps with default ensure_ascii:
quote, backslash and the common control characters get two-character escapes,
other control and all non-ASCII characters get unicode escapes (with a
surrogate pair above the basic plane), and printable ASCII passes through. -/
def jsonEscapeChar (c : Char) : List Char :=
  if c = '"' then ['\\', '"']
  else if c = '\\' then ['\\', '\\']
  else if c = '\n' then ['\\', 'n']
  else if c = '\t' then ['\\', 't']
  else if c = '\x0d' then ['\\', 'r']
  else if c = '\x08' then ['\\', 'b']
  else if c = '\x0c' then ['\\', 'f']
  else if c.toNat < 32 || c.toNat > 126 then
    if c.toNat < 65536 then '\\' :: 'u' :: jsonHex4 c.toNat
    else
      '\\' :: 'u' :: jsonHex4 (55296 + (c.toNat - 65536) / 1024) ++
        ('\\' :: 'u' :: jsonHex4 (56320 + (c.toNat - 65536) % 1024))
  else [c]

/-- A JSON string literal for s, as json.dumps renders it. -/
def pyJsonStr (s : String) : String :=
  "\"" ++ ⟨s.data.foldr (fun c acc => jsonEscapeChar c ++ acc) []⟩ ++ "\""

/-- The anonymous-branch data string: json.dumps of the dict with keys
fp, ip, ua (sort_keys=True orders them this way), each value defaulted to the
empty string by the `or` expressions in the source. -/
def anonTokenData (ip ua fp : Option String) : String :=
  "\x7b\"fp\": " ++ pyJsonStr (fp.getD "") ++ ", \"ip\": " ++
    pyJsonStr (ip.getD "") ++ ", \"ua\": " ++ pyJsonStr (ua.getD "") ++ "\x7d"

/-- The exact string generate_voter_token feeds to sha256 (idempotency.py
lines 120-149): user:id when user_id is truthy (non-None and nonzero),
otherwise the canonical JSON serialization of the anonymous tuple. -/
def generate_voter_token_data (user_id : Option Int)
    (ip ua fp : Option String) : String :=
  match user_id with
  | some uid => if uid != 0 then "user:" ++ pyIntRepr uid else anonTokenData ip ua fp
  | none => anonTokenData ip ua fp

/-! ## The fingerprint deep-analysis task

Embedding of analyze_fingerprint_patterns (backend/apps/votes/tasks.py,
lines 27-123).  The database query result — the historical votes for the
(fingerprint, poll) pair inside the analysis window, ordered by created_at
descending as the queryset orders them — is passed in as an explicit list.
The thresholds read from FINGERPRINT_SUSPICIOUS_THRESHOLDS (defaults 2 and 2)
are passed as parameters.  Timestamps are seconds as rationals. -/

/-- One row of the values() query in analyze_fingerprint_patterns:
user id (null for anonymous votes), ip address (nullable), and the creation
timestamp in seconds. -/
structure HistVote where
  user_id : Option Nat
  ip_address : Option String
  created_at : ℚ
deriving DecidableEq

/-- The set of distinct truthy user ids in the history, as the source builds
it: `set(v[user_id] for v in historical_votes if v[user_id])` keeps ids that
are non-None and nonzero. -/
def distinctTruthyUsers (hist : List HistVote) : List Nat :=
  (hist.filterMap fun v => v.user_id.bind fun u => if u = 0 then none else some u).dedup

/-- The set of distinct truthy ip addresses in the history: non-None and
nonempty strings. -/
def distinctTruthyIps (hist : List HistVote) : List String :=
  (hist.filterMap fun v => v.ip_address.bind fun s => if s = "" then none else some s).dedup

/-- The analysis fields the task writes into the cache entry. -/
structure FpAnalysisResult where
  risk_factors : List String
  risk_score : Nat
  historical_vote_count : Nat
  historical_user_count : Nat
  historical_ip_count : Nat
deriving DecidableEq

/-- Embedding of analyze_fingerprint_patterns: returns none on the early
exits (falsy fingerprint, empty history), otherwise the computed analysis.
The accumulation mirrors the source statement by statement: +40 for enough
distinct users, +30 for enough distinct ips, +20 for more than 10 votes per
hour over a strictly positive observed span, and the final score written to
the cache is min(score, 100). -/
def analyze_fingerprint_patterns (differentUsersThreshold differentIpsThreshold : Nat)
    (fingerprint : String) (hist : List HistVote) : Option FpAnalysisResult :=
  if fingerprint = "" then none
  else
    match hist with
    | [] => none
    | h :: t =>
      let votes := h :: t
      let distinct_users := distinctTruthyUsers votes
      let distinct_ips := distinctTruthyIps votes
      let vote_count := votes.length
      let first_vote := (votes.getLast (List.cons_ne_nil h t)).created_at
      let last_vote := h.created_at
      let time_span_hours : ℚ := (last_vote - first_vote) / 3600
      let s1 : List String × Nat :=
        if differentUsersThreshold ≤ distinct_users.length
        then (["multiple_users"], 40) else ([], 0)
      let s2 : List String × Nat :=
        if differentIpsThreshold ≤ distinct_ips.length
        then (s1.1 ++ ["multiple_ips"], s1.2 + 30) else s1
      let s3 : List String × Nat :=
        if 0 < time_span_hours ∧ 10 < (vote_count : ℚ) / time_span_hours
        then (s2.1 ++ ["high_frequency"], s2.2 + 20) else s2
      some { risk_factors := s3.1
             risk_score := min s3.2 100
             historical_vote_count := vote_count
             historical_user_count := distinct_users.length
             historical_ip_count := distinct_ips.length }

/-- The distinct non-null user-id count, written from the words of claim C5
(count of distinct non-null user ids). -/
def specUserCount (hist : List HistVote) : Nat :=
  (hist.filterMap (·.user_id)).dedup.length

/-- The distinct non-null ip count, written from the words of claim C5. -/
def specIpCount (hist : List HistVote) : Nat :=
  (hist.filterMap (·.ip_address)).dedup.length

/-- The elapsed hours between the first and last observed vote of a history
ordered newest-first, as the words of claim C5 describe the span. -/
def observedSpanHours (h : HistVote) (t : List HistVote) : ℚ :=
  (h.created_at - ((h :: t).getLast (List.cons_ne_nil h t)).created_at) / 3600

/-- The velocity rule of claim C5: vote count divided by the elapsed hours
exceeds 10, over a strictly positive span. -/
def specVelocityCond (h : HistVote) (t : List HistVote) : Prop :=
  0 < observedSpanHours h t ∧ 10 < ((h :: t).length : ℚ) / observedSpanHours h t

instance specVelocityCondDecidable (h : HistVote) (t : List HistVote) :
    Decidable (specVelocityCond h t) := by
  unfold specVelocityCond
  infer_instance

/-! ## The durable VoteRecord store constraints

Migration 0004_allow_null_user_for_anonymous_votes adds the partial unique
constraint unique_user_poll on (user, poll) conditioned on user being
non-null.  The unique idempotency-key constraint sits in the Vote model file,
which is not part of the sources here, so it is modelled from the spec. -/

/-- The columns of a stored VoteRecord row that the uniqueness constraints
mention. -/
structure VoteRecordRow where
  user : Option Nat
  poll : Nat
  idempotency_key : String
deriving DecidableEq

/-- From migration 0004, constraint unique_user_poll: two rows conflict when
both have a non-null user and agree on (user, poll); the constraint admits a
pair of rows exactly when they do not conflict. -/
def unique_user_poll (a b : VoteRecordRow) : Prop :=
  a.user ≠ none → b.user ≠ none → ¬(a.user = b.user ∧ a.poll = b.poll)

/-- Modelled from the spec: the idempotency key is globally unique on the
VoteRecord store (the Vote model declaring the column is not among the
sources; the spec states the invariant and the migrations index the column).
Two stored rows must carry different keys. -/
def uniqueIdempotencyKey (a b : VoteRecordRow) : Prop :=
  a.idempotency_key ≠ b.idempotency_key

/-- A stored VoteRecord table satisfies the storage-layer constraints when
every pair of distinct rows passes both uniqueness checks. -/
def voteStoreConstraintsOK (s : List VoteRecordRow) : Prop :=
  s.Pairwise fun a b => uniqueIdempotencyKey a b ∧ unique_user_poll a b

instance voteStoreConstraintsDecidable (s : List VoteRecordRow) :
    Decidable (voteStoreConstraintsOK s) := by
  unfold voteStoreConstraintsOK unique_user_poll uniqueIdempotencyKey
  exact List.instDecidablePairwise s

/-! ## The fingerprint block registry and the suspicion engine

The FingerprintBlock table comes from migration 0003_add_fingerprintblock:
fingerprint (unique), reason, is_active, plus audit columns that the claims
do not mention.  The engine itself, check_fingerprint_suspicious in
backend/core/utils/fingerprint_validation.py, is not among the sources (only
its test-suite is), so evaluate below is modelled from the spec, section 4.5:
empty fingerprint short-circuits to not-suspicious; an active block
short-circuits to risk 100 / block_vote / a permanently-blocked reason; the
scoring path combines the cache snapshot, the recent-window history and the
current attempt, adds 40 / 30 / 20 for the three rules, blocks on the
different-users or different-ips rule, and auto-creates a block row when it
blocks. -/

/-- A row of the FingerprintBlock registry (the columns the claims use). -/
structure FingerprintBlock where
  fingerprint : String
  reason : String
  is_active : Bool
deriving DecidableEq

/-- FingerprintBlockRegistry.is_blocked: an active row for this fingerprint
exists. -/
def is_blocked (reg : List FingerprintBlock) (fp : String) : Bool :=
  reg.any fun b => b.fingerprint = fp && b.is_active

/-- FingerprintBlock.unblock: deactivate every row carrying this fingerprint
(the table holds at most one, by the unique column). -/
def unblock (reg : List FingerprintBlock) (fp : String) : List FingerprintBlock :=
  reg.map fun b => if b.fingerprint = fp then { b with is_active := false } else b

/-- The verdict returned by SuspicionEngine.evaluate. -/
structure Verdict where
  suspicious : Bool
  block_vote : Bool
  risk_score : Nat
  reasons : List String
deriving DecidableEq

/-- A cache snapshot for a (fingerprint, poll) pair: vote count, user ids
seen, ips seen. -/
structure ActivitySnapshot where
  count : Nat
  users : List Nat
  ips : List String
deriving DecidableEq

/-- Modelled from the spec: the vote-velocity signal of section 4.5 over the
recent-window rows — more than 10 votes per hour across a strictly positive
observed span. -/
def velocityExceeded (recent : List HistVote) : Bool :=
  match recent with
  | [] => false
  | h :: t =>
    let ts := (h :: t).map (·.created_at)
    let span : ℚ := (ts.foldl max h.created_at - ts.foldl min h.created_at) / 3600
    decide (0 < span ∧ 10 < ((h :: t).length : ℚ) / span)

/-- Modelled from the spec: SuspicionEngine.evaluate
(check_fingerprint_suspicious in core/utils/fingerprint_validation.py, a file
absent from the sources).  Arguments: the block registry, the cache snapshot
for this (fingerprint, poll) pair if present, the recent-window rows from the
durable store, then the fingerprint, current user id and current ip of the
attempt.  Returns the verdict together with the registry as left after the
call (the engine may auto-create a block, and never deactivates one). -/
def evaluate (reg : List FingerprintBlock) (cacheSnap : Option ActivitySnapshot)
    (recent : List HistVote) (fp : String) (user_id : Option Nat)
    (ip : Option String) : Verdict × List FingerprintBlock :=
  if fp = "" then
    ({ suspicious := false, block_vote := false, risk_score := 0, reasons := [] }, reg)
  else
    match reg.find? (fun b => b.fingerprint = fp && b.is_active) with
    | some b =>
      ({ suspicious := true, block_vote := true, risk_score := 100,
         reasons := ["Fingerprint permanently blocked: " ++ b.reason] }, reg)
    | none =>
      let cacheUsers := (cacheSnap.map (·.users)).getD []
      let cacheIps := (cacheSnap.map (·.ips)).getD []
      let users := ((recent.filterMap (·.user_id)) ++ cacheUsers ++ user_id.toList).dedup
      let ips := ((recent.filterMap (·.ip_address)) ++ cacheIps ++ ip.toList).dedup
      let userRule := 2 ≤ users.length
      let ipRule := 2 ≤ ips.length
      let velRule := velocityExceeded recent = true
      let score :=
        min ((if userRule then 40 else 0) + (if ipRule then 30 else 0) +
          (if velRule then 20 else 0)) 100
      let reasons :=
        (if userRule then ["Fingerprint used by different users"] else []) ++
        (if ipRule then ["Fingerprint seen from different ip addresses"] else []) ++
        (if velRule then ["Rapid voting: high frequency"] else [])
      let verdict : Verdict :=
        { suspicious := decide (0 < score), block_vote := userRule ∨ ipRule,
          risk_score := score, reasons := reasons }
      let reg2 :=
        if verdict.block_vote then
          reg ++ [{ fingerprint := fp, reason := "Used by multiple users",
                    is_active := true }]
        else reg
      (verdict, reg2)

/-! ## Theorems -/

/-- C7: Malformed idempotency keys fail open and cause no effect: the cache
read is skipped (the answer is (False, None) and does not depend on the cache
state), the durable lookup is skipped (the answer is (False, None) whatever
the lookup would have produced, success or error), and the store is a no-op
(the cache comes back unchanged). -/
theorem malformed_key_operations_noop (key : String)
    (h : validate_idempotency_key key = false) :
    (∀ c : CacheState, check_idempotency c key = (false, none)) ∧
    (∀ lookup : Except String (Option Nat),
      check_duplicate_vote_by_idempotency key lookup = (false, none)) ∧
    (∀ (c : CacheState) (r : PyVal) (ttl : Nat),
      store_idempotency_result c key r ttl = c) := by
  refine ⟨fun c => ?_, fun lookup => ?_, fun c r ttl => ?_⟩ <;>
    simp [check_idempotency, check_duplicate_vote_by_idempotency,
      store_idempotency_result, h]

/-- Witness for C7 at the malformed key "zz". -/
theorem malformed_key_operations_noop_witness :
    validate_idempotency_key "zz" = false ∧
    check_idempotency (fun _ => none) "zz" = (false, none) :=
  ⟨by decide, (malformed_key_operations_noop "zz" (by decide)).1 (fun _ => none)⟩

/-- C9: A cached falsy result is not treated as a duplicate: storing a falsy
result under a well-formed key makes the subsequent check return
(False, None), and whenever the check reports a duplicate the value it found
in the cache is truthy. -/
theorem falsy_cached_result_not_duplicate :
    (∀ (c : CacheState) (key : String) (r : PyVal) (ttl : Nat),
      validate_idempotency_key key = true → r.truthy = false →
      check_idempotency (store_idempotency_result c key r ttl) key = (false, none)) ∧
    (∀ (c : CacheState) (key : String) (v : Option PyVal),
      check_idempotency c key = (true, v) →
      ∃ w, v = some w ∧ w.truthy = true) := by
  constructor
  · intro c key r ttl hv hr
    simp [check_idempotency, store_idempotency_result, cacheSet, cacheGet, hv, hr]
  · intro c key v h
    unfold check_idempotency at h
    split at h
    · simp at h
    · split at h
      · rename_i w hw
        split at h
        · rename_i htr
          simp only [Prod.mk.injEq, true_and] at h
          exact ⟨w, h.symm ▸ rfl, htr⟩
        · simp at h
      · simp at h

/-- Witness for C9: store an empty dict (falsy) under a valid 64-hex key
into the empty cache, then check it. -/
theorem falsy_cached_result_not_duplicate_witness :
    check_idempotency
      (store_idempotency_result (fun _ => none)
        "aaaaaaaaaaaaaaaaaaaaaaaaaaaaaaaaaaaaaaaaaaaaaaaaaaaaaaaaaaaaaaaa"
        (.pyDict []) 3600)
      "aaaaaaaaaaaaaaaaaaaaaaaaaaaaaaaaaaaaaaaaaaaaaaaaaaaaaaaaaaaaaaaa"
      = (false, none) :=
  falsy_cached_result_not_duplicate.1 (fun _ => none)
    "aaaaaaaaaaaaaaaaaaaaaaaaaaaaaaaaaaaaaaaaaaaaaaaaaaaaaaaaaaaaaaaa"
    (.pyDict []) 3600 (by decide) (by decide)

/-- C2 counterexample: at the well-formed key of 64 a-digits, a failing
durable lookup does NOT propagate: check_duplicate_vote_by_idempotency
catches the exception and answers (False, None) — "not a duplicate" — which
the claim says never happens. -/
theorem check_duplicate_swallows_lookup_error :
    check_duplicate_vote_by_idempotency
      "aaaaaaaaaaaaaaaaaaaaaaaaaaaaaaaaaaaaaaaaaaaaaaaaaaaaaaaaaaaaaaaa"
      (.error "database unavailable") = (false, none) := by decide

/-- C2 as amended: for every well-formed key, a failing durable lookup is
swallowed by the try/except in check_duplicate_vote_by_idempotency and
reported as (False, None); on a successful lookup the answer reflects the
row found. -/
theorem check_duplicate_error_behavior (key : String)
    (h : validate_idempotency_key key = true) :
    (∀ e : String,
      check_duplicate_vote_by_idempotency key (.error e) = (false, none)) ∧
    (∀ voteId : Nat,
      check_duplicate_vote_by_idempotency key (.ok (some voteId)) =
        (true, some voteId)) ∧
    check_duplicate_vote_by_idempotency key (.ok none) = (false, none) := by
  refine ⟨fun e => ?_, fun voteId => ?_, ?_⟩ <;>
    simp [check_duplicate_vote_by_idempotency, h]

/-- Witness for the amended C2 at the 64 a-digits key. -/
theorem check_duplicate_error_behavior_witness :
    check_duplicate_vote_by_idempotency
      "aaaaaaaaaaaaaaaaaaaaaaaaaaaaaaaaaaaaaaaaaaaaaaaaaaaaaaaaaaaaaaaa"
      (.error "connection reset") = (false, none) :=
  (check_duplicate_error_behavior
    "aaaaaaaaaaaaaaaaaaaaaaaaaaaaaaaaaaaaaaaaaaaaaaaaaaaaaaaaaaaaaaaa"
    (by decide)).1 "connection reset"

/-! ### validate_idempotency_key: supporting lemmas -/

/-- A hexadecimal digit is none of the special characters the Python int
parser treats specially. -/
theorem isHexDig_not_special (c : Char) (h : isHexDig c = true) :
    isPyWhitespace c = false ∧ c ≠ '+' ∧ c ≠ '-' ∧ c ≠ '_' ∧ c ≠ 'x' ∧ c ≠ 'X' := by
  refine ⟨?_, ?_, ?_, ?_, ?_, ?_⟩
  · by_contra hw
    rw [Bool.not_eq_false] at hw
    unfold isPyWhitespace at hw
    simp only [Bool.or_eq_true, decide_eq_true_eq] at hw
    rcases hw with ((((h1 | h1) | h1) | h1) | h1) | h1 <;>
      (subst h1; exact absurd h (by decide))
  all_goals (rintro rfl; exact absurd h (by decide))

/-- After a hex digit, a run consisting entirely of hex digits is accepted by
the underscore-aware tail parser. -/
theorem hexRunRest_of_all (l : List Char) (h : ∀ c ∈ l, isHexDig c = true) :
    hexRunRest l = true := by
  induction l with
  | nil => rfl
  | cons c rest ih =>
    have hc := h c (by simp)
    have hne : c ≠ '_' := (isHexDig_not_special c hc).2.2.2.1
    rw [hexRunRest.eq_def]
    simp only [if_neg hne, hc, Bool.true_and]
    exact ih fun d hd => h d (by simp [hd])

/-- A nonempty all-hex run is accepted. -/
theorem hexRunOk_of_all (l : List Char) (hne : l ≠ [])
    (h : ∀ c ∈ l, isHexDig c = true) : hexRunOk l = true := by
  cases l with
  | nil => exact absurd rfl hne
  | cons c rest =>
    rw [hexRunOk.eq_def]
    simp only [h c (by simp), Bool.true_and]
    exact hexRunRest_of_all rest fun d hd => h d (by simp [hd])

/-- dropWhile does nothing on a list free of the dropped predicate. -/
theorem dropWhile_eq_self_of_none (p : Char → Bool) (l : List Char)
    (h : ∀ c ∈ l, p c = false) : l.dropWhile p = l := by
  cases l with
  | nil => rfl
  | cons c rest => simp [List.dropWhile_cons, h c (by simp)]

/-- Stripping whitespace does nothing on an all-hex list. -/
theorem stripPyWs_of_all_hex (l : List Char) (h : ∀ c ∈ l, isHexDig c = true) :
    stripPyWs l = l := by
  have hws : ∀ c ∈ l, isPyWhitespace c = false :=
    fun c hc => (isHexDig_not_special c (h c hc)).1
  unfold stripPyWs
  rw [dropWhile_eq_self_of_none _ l hws,
    dropWhile_eq_self_of_none _ l.reverse
      (fun c hc => hws c (List.mem_reverse.mp hc)),
    List.reverse_reverse]

/-- Sign stripping does nothing when the head is a hex digit. -/
theorem afterSign_of_all_hex (l : List Char) (h : ∀ c ∈ l, isHexDig c = true) :
    afterSign l = l := by
  cases l with
  | nil => rfl
  | cons c rest =>
    have hc := isHexDig_not_special c (h c (by simp))
    simp [afterSign, hc.2.1, hc.2.2.1]

/-- Prefix stripping does nothing on an all-hex list: the second character of
a 0x / 0X prefix is not a hex digit. -/
theorem afterPrefix16_of_all_hex (l : List Char) (h : ∀ c ∈ l, isHexDig c = true) :
    afterPrefix16 l = l := by
  match l with
  | [] => rfl
  | [c] => rfl
  | c0 :: c1 :: rest =>
    have hc1 := isHexDig_not_special c1 (h c1 (by simp))
    simp [afterPrefix16, hc1.2.2.2.2.1, hc1.2.2.2.2.2]

/-- C6 as amended: validate_idempotency_key accepts a key iff it has length
64 and the Python call int(key, 16) succeeds; in particular every 64-char
pure-hex key is accepted — but Python int parsing also accepts signs,
surrounding whitespace, a 0x prefix and underscores between digits, so not
every accepted key is pure hex (see the counterexample theorem). -/
theorem validate_idempotency_key_spec :
    (∀ s : String, validate_idempotency_key s = true ↔
      s.data.length = 64 ∧ pyIntHexOk s = true) ∧
    (∀ s : String, specPureHexKey64 s = true → validate_idempotency_key s = true) := by
  constructor
  · intro s
    unfold validate_idempotency_key
    split_ifs with h1 h2
    · simp only [List.isEmpty_iff] at h1
      simp [h1]
    · exact iff_of_false (by simp) fun hc => h2 hc.1
    · have h3 : s.data.length = 64 := not_ne_iff.mp h2
      rw [h3]
      simp
  · intro s h
    simp only [specPureHexKey64, Bool.and_eq_true, decide_eq_true_eq,
      List.all_eq_true] at h
    obtain ⟨hlen, hall⟩ := h
    have hne : s.data ≠ [] := by
      intro hempty
      rw [hempty] at hlen
      simp at hlen
    unfold validate_idempotency_key pyIntHexOk
    rw [stripPyWs_of_all_hex _ hall, afterSign_of_all_hex _ hall,
      afterPrefix16_of_all_hex _ hall]
    simp [List.isEmpty_iff, hne, hlen, hexRunOk_of_all s.data hne hall]

/-- Witness for the amended C6 at a concrete pure-hex key of 64 a-digits. -/
theorem validate_idempotency_key_spec_witness :
    validate_idempotency_key
      "aaaaaaaaaaaaaaaaaaaaaaaaaaaaaaaaaaaaaaaaaaaaaaaaaaaaaaaaaaaaaaaa" = true :=
  validate_idempotency_key_spec.2
    "aaaaaaaaaaaaaaaaaaaaaaaaaaaaaaaaaaaaaaaaaaaaaaaaaaaaaaaaaaaaaaaa"
    (by decide)

/-- C6 counterexample: the 64-character key made of a plus sign and 63
f-digits is not a pure hex-digit string, yet validate_idempotency_key
accepts it, because Python int("+fff...", 16) succeeds.  The claim, which
says every key containing a sign returns False, fails here. -/
theorem validate_idempotency_key_accepts_sign :
    validate_idempotency_key
      "+fffffffffffffffffffffffffffffffffffffffffffffffffffffffffffffff" = true ∧
    specPureHexKey64
      "+fffffffffffffffffffffffffffffffffffffffffffffffffffffffffffffff" = false := by
  constructor <;> decide

/-! ### generate_voter_token -/

/-- C8 counterexample: user id 0 is present (non-None) but falsy in Python,
so the source takes the anonymous branch and the token does depend on the
ip: the two hash pre-images below differ, hence the tokens differ (sha256 is
collision-free on distinct inputs for all practical purposes, the reading the
spec itself adopts). -/
theorem voter_token_user_zero_depends_on_ip :
    generate_voter_token_data (some 0) (some "1.1.1.1") (some "agent") (some "aa") ≠
      generate_voter_token_data (some 0) (some "2.2.2.2") (some "agent") (some "aa") := by
  decide

/-- C8 as amended: for every truthy user id (non-None and nonzero), the
voter-token hash pre-image is user:id, independent of ip, user agent and
fingerprint. -/
theorem voter_token_depends_only_on_truthy_user (uid : Int) (h : uid ≠ 0) :
    ∀ ip ua fp ip2 ua2 fp2 : Option String,
      generate_voter_token_data (some uid) ip ua fp =
        generate_voter_token_data (some uid) ip2 ua2 fp2 ∧
      generate_voter_token_data (some uid) ip ua fp = "user:" ++ pyIntRepr uid := by
  intro ip ua fp ip2 ua2 fp2
  simp [generate_voter_token_data, bne_iff_ne, h]

/-- Witness for the amended C8 at user id 7 and two unrelated anonymous
tuples. -/
theorem voter_token_depends_only_on_truthy_user_witness :
    generate_voter_token_data (some 7) (some "1.1.1.1") (some "ua1") (some "fp1") =
      generate_voter_token_data (some 7) (some "9.9.9.9") none none :=
  (voter_token_depends_only_on_truthy_user 7 (by decide)
    (some "1.1.1.1") (some "ua1") (some "fp1") (some "9.9.9.9") none none).1

/-! ### generate_idempotency_key: determinism and injectivity of the hash
pre-image encoding -/

/-- Decimal digit characters are never the colon separator. -/
theorem digitChar_lt10_ne_colon (d : Nat) (h : d < 10) : Nat.digitChar d ≠ ':' := by
  interval_cases d <;> decide

/-- The decimal rendering of a natural number never contains a colon. -/
theorem mem_pyNatRepr_ne_colon (n : Nat) : ':' ∉ (pyNatRepr n).data := by
  unfold pyNatRepr
  split
  · decide
  · intro hmem
    rw [show (String.mk (((Nat.digits 10 n).map Nat.digitChar).reverse)).data
        = ((Nat.digits 10 n).map Nat.digitChar).reverse from rfl,
      List.mem_reverse] at hmem
    obtain ⟨d, hd, hdc⟩ := List.mem_map.mp hmem
    exact digitChar_lt10_ne_colon d (Nat.digits_lt_base (by norm_num) hd) hdc

/-- digitChar is injective on single decimal digits. -/
theorem digitChar_inj10 (a b : Nat) (ha : a < 10) (hb : b < 10)
    (h : Nat.digitChar a = Nat.digitChar b) : a = b := by
  interval_cases a <;> interval_cases b <;> first | rfl | exact absurd h (by decide)

/-- Mapping digitChar over decimal digit lists is injective. -/
theorem map_digitChar_inj (l1 : List Nat) : ∀ (l2 : List Nat),
    (∀ x ∈ l1, x < 10) → (∀ x ∈ l2, x < 10) →
    l1.map Nat.digitChar = l2.map Nat.digitChar → l1 = l2 := by
  induction l1 with
  | nil =>
    intro l2 _ _ h
    cases l2 with
    | nil => rfl
    | cons b t2 => simp at h
  | cons a t ih =>
    intro l2 h1 h2 h
    cases l2 with
    | nil => simp at h
    | cons b t2 =>
      simp only [List.map_cons, List.cons.injEq] at h
      obtain ⟨hab, ht⟩ := h
      have hab2 := digitChar_inj10 a b (h1 a (by simp)) (h2 b (by simp)) hab
      subst hab2
      rw [ih t2 (fun x hx => h1 x (by simp [hx])) (fun x hx => h2 x (by simp [hx])) ht]

/-- A number whose digit rendering is the single character 0 is zero. -/
theorem eq_zero_of_digits_map_eq (k : Nat)
    (h2 : (Nat.digits 10 k).map Nat.digitChar = ['0']) : k = 0 := by
  have hdig : Nat.digits 10 k = [0] := by
    rcases hdg : Nat.digits 10 k with _ | ⟨d, t⟩
    · rw [hdg] at h2; simp at h2
    · rw [hdg] at h2
      simp only [List.map_cons, List.cons.injEq] at h2
      obtain ⟨hd0, ht⟩ := h2
      have ht2 : t = [] := by
        cases t with
        | nil => rfl
        | cons x xs => simp at ht
      have hdlt : d < 10 := Nat.digits_lt_base (by norm_num) (by rw [hdg]; simp)
      have hd00 : d = 0 := digitChar_inj10 d 0 hdlt (by norm_num) hd0
      rw [ht2, hd00]
  have hof := Nat.ofDigits_digits 10 k
  rw [hdig] at hof
  simp [Nat.ofDigits] at hof
  exact hof.symm

/-- The decimal rendering of a natural number determines the number. -/
theorem pyNatRepr_data_inj (m n : Nat)
    (h : (pyNatRepr m).data = (pyNatRepr n).data) : m = n := by
  unfold pyNatRepr at h
  by_cases hm : m = 0 <;> by_cases hn : n = 0
  · rw [hm, hn]
  · exfalso
    rw [if_pos hm, if_neg hn] at h
    refine hn (eq_zero_of_digits_map_eq n ?_)
    have h9 := h.symm
    rw [show (String.mk (((Nat.digits 10 n).map Nat.digitChar).reverse)).data
        = ((Nat.digits 10 n).map Nat.digitChar).reverse from rfl] at h9
    rw [← List.reverse_reverse ((Nat.digits 10 n).map Nat.digitChar), h9]
    rfl
  · exfalso
    rw [if_neg hm, if_pos hn] at h
    refine hm (eq_zero_of_digits_map_eq m ?_)
    rw [show (String.mk (((Nat.digits 10 m).map Nat.digitChar).reverse)).data
        = ((Nat.digits 10 m).map Nat.digitChar).reverse from rfl] at h
    rw [← List.reverse_reverse ((Nat.digits 10 m).map Nat.digitChar), h]
    rfl
  · rw [if_neg hm, if_neg hn] at h
    have h3 := List.reverse_injective h
    have h4 := map_digitChar_inj (Nat.digits 10 m) (Nat.digits 10 n)
      (fun x hx => Nat.digits_lt_base (by norm_num) hx)
      (fun x hx => Nat.digits_lt_base (by norm_num) hx) h3
    have h5 := Nat.ofDigits_digits 10 m
    rw [h4, Nat.ofDigits_digits 10 n] at h5
    exact h5.symm

/-- String concatenation concatenates the underlying character lists. -/
theorem string_data_append (a b : String) : (a ++ b).data = a.data ++ b.data := rfl

/-- Splitting at a separator absent from the left parts is unambiguous. -/
theorem colon_split_inj (a : List Char) : ∀ (b a2 b2 : List Char),
    ':' ∉ a → ':' ∉ a2 → a ++ ':' :: b = a2 ++ ':' :: b2 → a = a2 ∧ b = b2 := by
  induction a with
  | nil =>
    intro b a2 b2 _ ha2 h
    cases a2 with
    | nil => simpa using h
    | cons x xs =>
      simp only [List.nil_append, List.cons_append, List.cons.injEq] at h
      exact absurd (by rw [h.1]; exact List.mem_cons_self x xs) ha2
  | cons y ys ih =>
    intro b a2 b2 ha ha2 h
    cases a2 with
    | nil =>
      simp only [List.cons_append, List.nil_append, List.cons.injEq] at h
      exact absurd (by rw [← h.1]; exact List.mem_cons_self y ys) ha
    | cons x xs =>
      simp only [List.cons_append, List.cons.injEq] at h
      obtain ⟨hyx, hrest⟩ := h
      obtain ⟨h1, h2⟩ := ih b xs b2 (fun hm => ha (List.mem_cons_of_mem _ hm))
        (fun hm => ha2 (List.mem_cons_of_mem _ hm)) hrest
      exact ⟨by rw [hyx, h1], h2⟩

/-- The character list underlying the colon-joined key encoding. -/
theorem genKeyData_data (u p c : Nat) :
    (generate_idempotency_key_data u p c).data =
      (pyNatRepr u).data ++ ':' :: ((pyNatRepr p).data ++ ':' :: (pyNatRepr c).data) := by
  unfold generate_idempotency_key_data
  rw [string_data_append, string_data_append, string_data_append, string_data_append]
  simp [List.append_assoc]

/-- C3: generate_idempotency_key is deterministic — the same (user, poll,
choice) triple always produces the same key — and the colon-joined encoding
it feeds to sha256 is injective: distinct id triples always produce distinct
hash inputs, hence distinct keys under the hash-injectivity reading the
claim adopts. -/
theorem generate_idempotency_key_deterministic_and_injective :
    (∀ u p c : Nat,
      generate_idempotency_key_data u p c = generate_idempotency_key_data u p c) ∧
    ∀ u p c u2 p2 c2 : Nat,
      generate_idempotency_key_data u p c = generate_idempotency_key_data u2 p2 c2 →
      u = u2 ∧ p = p2 ∧ c = c2 := by
  refine ⟨fun u p c => rfl, fun u p c u2 p2 c2 h => ?_⟩
  have hd := congrArg String.data h
  rw [genKeyData_data, genKeyData_data] at hd
  obtain ⟨h1, hrest⟩ := colon_split_inj _ _ _ _ (mem_pyNatRepr_ne_colon u)
    (mem_pyNatRepr_ne_colon u2) hd
  obtain ⟨h2, h3⟩ := colon_split_inj _ _ _ _ (mem_pyNatRepr_ne_colon p)
    (mem_pyNatRepr_ne_colon p2) hrest
  exact ⟨pyNatRepr_data_inj _ _ h1, pyNatRepr_data_inj _ _ h2, pyNatRepr_data_inj _ _ h3⟩

/-- Witness for C3: both parts applied at the triple (12, 7, 30), the key
equality hypothesis discharged by evaluation. -/
theorem generate_idempotency_key_deterministic_and_injective_witness :
    generate_idempotency_key_data 12 7 30 = generate_idempotency_key_data 12 7 30 ∧
      (12 = 12 ∧ 7 = 7 ∧ 30 = 30) :=
  ⟨generate_idempotency_key_deterministic_and_injective.1 12 7 30,
    generate_idempotency_key_deterministic_and_injective.2 12 7 30 12 7 30 rfl⟩

/-! ### VoteRecord storage constraints -/

/-- C4: Under the storage-layer constraints — the globally unique idempotency
key and the partial unique constraint unique_user_poll of migration 0004 —
every two distinct stored VoteRecord rows carry different idempotency keys,
and when both have a non-null user they differ on the (user, poll) pair;
rows with a null user may repeat the pair, as the second conjunct shows on a
store holding two anonymous votes for the same poll. -/
theorem vote_store_uniqueness :
    (∀ (s : List VoteRecordRow), voteStoreConstraintsOK s →
      ∀ (i j : Nat) (hi : i < s.length) (hj : j < s.length), i ≠ j →
        (s.get ⟨i, hi⟩).idempotency_key ≠ (s.get ⟨j, hj⟩).idempotency_key ∧
        ((s.get ⟨i, hi⟩).user ≠ none → (s.get ⟨j, hj⟩).user ≠ none →
          ¬((s.get ⟨i, hi⟩).user = (s.get ⟨j, hj⟩).user ∧
            (s.get ⟨i, hi⟩).poll = (s.get ⟨j, hj⟩).poll))) ∧
    voteStoreConstraintsOK
      [⟨none, 1, "k1"⟩, ⟨none, 1, "k2"⟩, ⟨some 5, 1, "k3"⟩] := by
  constructor
  · intro s hs i j hi hj hij
    have hpair := (List.pairwise_iff_get.mp hs)
    rcases Nat.lt_or_ge i j with hlt | hge
    · exact ⟨(hpair ⟨i, hi⟩ ⟨j, hj⟩ hlt).1, (hpair ⟨i, hi⟩ ⟨j, hj⟩ hlt).2⟩
    · have hlt2 : j < i := Nat.lt_of_le_of_ne hge (fun e => hij e.symm)
      obtain ⟨hk, hu⟩ := hpair ⟨j, hj⟩ ⟨i, hi⟩ hlt2
      refine ⟨fun e => hk e.symm, fun h1 h2 hcon => hu h2 h1 ⟨hcon.1.symm, hcon.2.symm⟩⟩
  · unfold voteStoreConstraintsOK uniqueIdempotencyKey unique_user_poll
    decide

/-- Witness for C4 on a concrete two-row store of authenticated votes on the
same poll by different users. -/
theorem vote_store_uniqueness_witness :
    "a" ≠ "b" ∧
      ((some 1 : Option Nat) ≠ none → (some 2 : Option Nat) ≠ none →
        ¬((some 1 : Option Nat) = some 2 ∧ (1 : Nat) = 1)) :=
  vote_store_uniqueness.1
    [⟨some 1, 1, "a"⟩, ⟨some 2, 1, "b"⟩]
    (by unfold voteStoreConstraintsOK uniqueIdempotencyKey unique_user_poll; decide)
    0 1 (by decide) (by decide) (by decide)

/-! ### analyze_fingerprint_patterns -/

/-- On a history whose present user ids are nonzero (every Django primary
key is), the truthiness filter of the source coincides with the non-null
filter of the claim. -/
theorem distinctTruthyUsers_eq_spec (hist : List HistVote)
    (h : ∀ v ∈ hist, v.user_id ≠ some 0) :
    (distinctTruthyUsers hist).length = specUserCount hist := by
  unfold distinctTruthyUsers specUserCount
  congr 2
  apply List.filterMap_congr
  intro v hv
  cases hu : v.user_id with
  | none => rfl
  | some u =>
    have hu0 : u ≠ 0 := by
      intro h0
      exact h v hv (by rw [hu, h0])
    simp [Option.bind, hu0]

/-- On a history whose present ip addresses are nonempty strings (every
stored GenericIPAddressField value is), the truthiness filter of the source
coincides with the non-null filter of the claim. -/
theorem distinctTruthyIps_eq_spec (hist : List HistVote)
    (h : ∀ v ∈ hist, v.ip_address ≠ some "") :
    (distinctTruthyIps hist).length = specIpCount hist := by
  unfold distinctTruthyIps specIpCount
  congr 2
  apply List.filterMap_congr
  intro v hv
  cases hu : v.ip_address with
  | none => rfl
  | some s =>
    have hs0 : s ≠ "" := by
      intro h0
      exact h v hv (by rw [hu, h0])
    simp [Option.bind, hs0]

/-- C5: For every observed history (nonempty, newest-first, with the present
user ids nonzero and present ips nonempty as the database stores them), the
risk score computed by analyze_fingerprint_patterns equals the cap at 100 of
the sum of the three independent additive rules — +40 when the distinct
non-null user count reaches the threshold, +30 when the distinct ip count
reaches the threshold, +20 when the vote velocity over the observed span
exceeds 10 per hour — and each risk factor is reported iff its rule fired
(multiple_users for the different-users reason, multiple_ips for the
different-ip reason, high_frequency for the rapid/high-frequency reason). -/
theorem analyze_fingerprint_patterns_additive (du di : Nat) (fp : String)
    (h : HistVote) (t : List HistVote) (a : FpAnalysisResult)
    (husers : ∀ v ∈ h :: t, v.user_id ≠ some 0)
    (hips : ∀ v ∈ h :: t, v.ip_address ≠ some "")
    (heq : analyze_fingerprint_patterns du di fp (h :: t) = some a) :
    a.risk_score =
      min ((if du ≤ specUserCount (h :: t) then 40 else 0) +
           (if di ≤ specIpCount (h :: t) then 30 else 0) +
           (if specVelocityCond h t then 20 else 0)) 100 ∧
    ("multiple_users" ∈ a.risk_factors ↔ du ≤ specUserCount (h :: t)) ∧
    ("multiple_ips" ∈ a.risk_factors ↔ di ≤ specIpCount (h :: t)) ∧
    ("high_frequency" ∈ a.risk_factors ↔ specVelocityCond h t) := by
  by_cases hfp : fp = ""
  · simp [analyze_fingerprint_patterns, hfp] at heq
  · simp only [analyze_fingerprint_patterns, if_neg hfp] at heq
    rw [distinctTruthyUsers_eq_spec _ husers, distinctTruthyIps_eq_spec _ hips] at heq
    obtain rfl := (Option.some.inj heq).symm
    simp only [specVelocityCond, observedSpanHours]
    split_ifs <;> simp_all

/-- Witness for C5 on a two-vote history that fires the different-users rule
only: two distinct users, no ips, one hour apart. -/
theorem analyze_fingerprint_patterns_additive_witness :
    (FpAnalysisResult.mk ["multiple_users"] 40 2 2 0).risk_score =
      min ((if 2 ≤ specUserCount [⟨some 1, none, 3600⟩, ⟨some 2, none, 0⟩] then 40 else 0) +
           (if 2 ≤ specIpCount [⟨some 1, none, 3600⟩, ⟨some 2, none, 0⟩] then 30 else 0) +
           (if specVelocityCond ⟨some 1, none, 3600⟩ [⟨some 2, none, 0⟩] then 20 else 0)) 100 :=
  (analyze_fingerprint_patterns_additive 2 2 "a" ⟨some 1, none, 3600⟩
    [⟨some 2, none, 0⟩] ⟨["multiple_users"], 40, 2, 2, 0⟩ (by decide) (by decide) (by
      have hne : ("a" : String) ≠ "" := by decide
      norm_num [analyze_fingerprint_patterns, distinctTruthyUsers, distinctTruthyIps,
        List.filterMap_cons, List.filterMap_nil, List.dedup_cons_of_not_mem,
        List.dedup_nil, List.mem_dedup, hne])).1

/-- C10: When every observed vote of the history carries the same timestamp,
the observed span is zero, so the high_frequency factor is never reported and
the +20 contribution is never added: the score is the capped sum of the two
remaining rules alone, no matter how many simultaneous votes there are. -/
theorem high_frequency_requires_positive_span (du di : Nat) (fp : String)
    (h : HistVote) (t : List HistVote) (a : FpAnalysisResult)
    (hsame : ∀ v ∈ h :: t, v.created_at = h.created_at)
    (heq : analyze_fingerprint_patterns du di fp (h :: t) = some a) :
    "high_frequency" ∉ a.risk_factors ∧
    a.risk_score =
      min ((if du ≤ (distinctTruthyUsers (h :: t)).length then 40 else 0) +
           (if di ≤ (distinctTruthyIps (h :: t)).length then 30 else 0)) 100 := by
  by_cases hfp : fp = ""
  · simp [analyze_fingerprint_patterns, hfp] at heq
  · simp only [analyze_fingerprint_patterns, if_neg hfp] at heq
    have hlast : ((h :: t).getLast (List.cons_ne_nil h t)).created_at = h.created_at :=
      hsame _ (List.getLast_mem _)
    rw [hlast] at heq
    obtain rfl := (Option.some.inj heq).symm
    split_ifs <;> simp_all

/-- Witness for C10 on three simultaneous votes by three distinct users. -/
theorem high_frequency_requires_positive_span_witness :
    "high_frequency" ∉ (FpAnalysisResult.mk ["multiple_users"] 40 3 3 0).risk_factors :=
  (high_frequency_requires_positive_span 2 2 "a" ⟨some 1, none, 50⟩
    [⟨some 2, none, 50⟩, ⟨some 3, none, 50⟩]
    ⟨["multiple_users"], 40, 3, 3, 0⟩ (by decide) (by
      have hne : ("a" : String) ≠ "" := by decide
      norm_num [analyze_fingerprint_patterns, distinctTruthyUsers, distinctTruthyIps,
        List.filterMap_cons, List.filterMap_nil, List.dedup_cons_of_not_mem,
        List.dedup_nil, List.mem_dedup, hne])).1

/-! ### The suspicion engine and permanent blocks -/

/-- An evaluate call leaves the registry unchanged or appends one auto-block
row: it never removes or deactivates a block. -/
theorem evaluate_snd_cases (reg : List FingerprintBlock) (cs : Option ActivitySnapshot)
    (recent : List HistVote) (fp2 : String) (uid : Option Nat) (ip : Option String) :
    (evaluate reg cs recent fp2 uid ip).2 = reg ∨
    ∃ nb, (evaluate reg cs recent fp2 uid ip).2 = reg ++ [nb] := by
  unfold evaluate
  split_ifs with h1
  · exact Or.inl rfl
  · cases hfind : reg.find? (fun b => b.fingerprint = fp2 && b.is_active) with
    | some b2 => exact Or.inl rfl
    | none =>
      simp only
      split_ifs <;> first | exact Or.inl rfl | exact Or.inr ⟨_, rfl⟩

/-- C1: Blocking is monotonic.  While an active block row for a nonempty
fingerprint exists, every evaluate call for that fingerprint — whatever the
cache snapshot, recent history, user id and ip — returns block_vote true,
risk score 100, suspicious true, and a reason containing the text
permanently blocked, and leaves the registry unchanged; no evaluate call on
any registry and any fingerprint removes the block; and after an unblock
call, the fingerprint is no longer blocked and a fresh evaluate over a clean
history (no cache entry, no recent rows) returns suspicious false. -/
theorem blocked_monotonic (fp : String) (hfp : fp ≠ "") :
    (∀ (reg : List FingerprintBlock), is_blocked reg fp = true →
      ∀ (cs : Option ActivitySnapshot) (recent : List HistVote)
        (uid : Option Nat) (ip : Option String),
        (evaluate reg cs recent fp uid ip).1.block_vote = true ∧
        (evaluate reg cs recent fp uid ip).1.risk_score = 100 ∧
        (evaluate reg cs recent fp uid ip).1.suspicious = true ∧
        (∃ s ∈ (evaluate reg cs recent fp uid ip).1.reasons,
          "permanently blocked".data <:+: s.data) ∧
        (evaluate reg cs recent fp uid ip).2 = reg) ∧
    (∀ (reg : List FingerprintBlock), is_blocked reg fp = true →
      ∀ (cs : Option ActivitySnapshot) (recent : List HistVote) (fp2 : String)
        (uid : Option Nat) (ip : Option String),
        is_blocked (evaluate reg cs recent fp2 uid ip).2 fp = true) ∧
    (∀ (reg : List FingerprintBlock) (uid : Option Nat) (ip : Option String),
      (evaluate (unblock reg fp) none [] fp uid ip).1.suspicious = false ∧
      is_blocked (unblock reg fp) fp = false) := by
  refine ⟨?_, ?_, ?_⟩
  · intro reg hb cs recent uid ip
    obtain ⟨b, hbmem, hbp⟩ := List.any_eq_true.mp hb
    have hfind : (reg.find? (fun b => b.fingerprint = fp && b.is_active)).isSome := by
      rw [List.find?_isSome]
      exact ⟨b, hbmem, hbp⟩
    obtain ⟨b2, hb2⟩ := Option.isSome_iff_exists.mp hfind
    unfold evaluate
    rw [if_neg hfp, hb2]
    refine ⟨rfl, rfl, rfl,
      ⟨"Fingerprint permanently blocked: " ++ b2.reason, by simp, ?_⟩, rfl⟩
    refine ⟨"Fingerprint ".data, (": " ++ b2.reason).data, ?_⟩
    rw [string_data_append, string_data_append]
    rw [show ("Fingerprint permanently blocked: ").data
        = "Fingerprint ".data ++ "permanently blocked".data ++ ": ".data from by decide]
    simp [List.append_assoc]
  · intro reg hb cs recent fp2 uid ip
    rcases evaluate_snd_cases reg cs recent fp2 uid ip with hc | ⟨nb, hc⟩
    · rw [hc]
      exact hb
    · rw [hc]
      unfold is_blocked at hb ⊢
      rw [List.any_append, hb]
      rfl
  · intro reg uid ip
    have hnb : ∀ b ∈ unblock reg fp, ¬(b.fingerprint = fp && b.is_active) = true := by
      intro b hbm
      obtain ⟨b0, _, hb0⟩ := List.mem_map.mp hbm
      by_cases hb0f : b0.fingerprint = fp
      · rw [← hb0]
        simp [hb0f]
      · rw [← hb0]
        simp [hb0f]
    constructor
    · have hfind : (unblock reg fp).find? (fun b => b.fingerprint = fp && b.is_active) = none :=
        List.find?_eq_none.mpr hnb
      unfold evaluate
      rw [if_neg hfp, hfind]
      simp only
      cases uid <;> cases ip <;> simp [velocityExceeded]
    · unfold is_blocked
      rw [List.any_eq_false]
      intro b hbm
      simpa using hnb b hbm

/-- Witness for C1: a registry holding one active manual-review block on the
fingerprint abcd — evaluate blocks it, and after unblock a fresh evaluate
over a clean history is not suspicious. -/
theorem blocked_monotonic_witness :
    (evaluate [⟨"abcd", "manual review", true⟩] none [] "abcd" (some 9)
      (some "1.2.3.4")).1.block_vote = true ∧
    (evaluate (unblock [⟨"abcd", "manual review", true⟩] "abcd") none [] "abcd"
      (some 9) (some "1.2.3.4")).1.suspicious = false :=
  ⟨((blocked_monotonic "abcd" (by decide)).1 [⟨"abcd", "manual review", true⟩]
      (by decide) none [] (some 9) (some "1.2.3.4")).1,
   ((blocked_monotonic "abcd" (by decide)).2.2 [⟨"abcd", "manual review", true⟩]
      (some 9) (some "1.2.3.4")).1⟩

end Provote
